import Mathlib

/-!
Shallow embedding of the breek post/comment engine.

The post engine lives in the PostProvider of the repository
(src/unnamed/part_001): a list of posts held in local storage, with
mutating operations expressed as pure updates on the previous list.
The comment engine lives in src/src/context/CommentContext.tsx.
Throwing TS code is modelled with `Except`: an `.error` result leaves
the collection unchanged (the TS `setPosts` updater throws before
returning a new array).  The implicit `currentUser`, the generated id
(`Date.now().toString()`) and the timestamp (`new Date().toISOString()`)
are passed as explicit parameters `u`, `nid`, `now`.
-/

namespace Breek

/-- JS `String.prototype.trim` (the `.trim()` of the source): drops
whitespace from both ends.  Modelled structurally over the character
list so that it evaluates by kernel reduction. -/
def jsTrim (s : String) : String :=
  ⟨((s.data.dropWhile Char.isWhitespace).reverse.dropWhile
      Char.isWhitespace).reverse⟩

/-- The `Post` record of src/unnamed/part_007 (types.ts).  Optional TS
fields become `Option`/`Bool` with the same defaults as an absent field
(`undefined` compares equal to `undefined`, hence `none == none`). -/
structure Post where
  id : String
  content : String
  authorId : String
  createdAt : String
  likes : List String
  isRepost : Bool := false
  originalPostId : Option String := none
  isCommentRepost : Bool := false
  originalCommentId : Option String := none
  originalAuthorId : Option String := none
  isReplyRepost : Bool := false
  isQuote : Bool := false
  quoteContent : Option String := none
  deriving Repr, DecidableEq

/-- The `Comment` record of src/unnamed/part_007 (types.ts). -/
structure Comment where
  id : String
  content : String
  authorId : String
  postId : String
  createdAt : String
  likes : List String
  parentId : Option String := none
  isRepost : Bool := false
  originalCommentId : Option String := none
  deriving Repr, DecidableEq

deriving instance DecidableEq for Except

/-- Error outcomes of the throwing TS operations, one constructor per
distinct `throw new Error(...)` message of the source. -/
inductive PostError where
  | notFound
  | notYourPost
  | tooLong
  | alreadyReposted
  | ownRepost
  | alreadyRepostedOriginal
  | quoteOfQuote
  | alreadyQuoted
  | noQuoteFound
  | notYourQuote
  | notYourRepost
  | notReposted
  | alreadyRepostedComment
  | emptyQuote
  deriving Repr, DecidableEq

/-- `createPost` (part_001 lines 39-53): trims the content and prepends
the new post; no length check is performed here. -/
def createPost (u nid now content : String) (s : List Post) :
    Except PostError (List Post) :=
  .ok ({ id := nid, content := jsTrim content, authorId := u,
         createdAt := now, likes := [] } :: s)

/-- `deletePost` (part_001 lines 56-77): removes the post and any
`isRepost` item whose `originalPostId` is the deleted id. -/
def deletePost (u postId : String) (s : List Post) :
    Except PostError (List Post) :=
  match s.find? (fun p => p.id == postId) with
  | none => .error .notFound
  | some postToDelete =>
    if postToDelete.authorId != u then .error .notYourPost
    else .ok (s.filter (fun p =>
      (p.id != postId && !(p.isRepost && p.originalPostId == some postId)) ||
      (p.id == postId && p.authorId != u)))

/-- `editPost` (part_001 lines 80-110): rejects content over 67
characters, otherwise stores the trimmed content. -/
def editPost (u postId content : String) (s : List Post) :
    Except PostError (List Post) :=
  match s.find? (fun p => p.id == postId) with
  | none => .error .notFound
  | some postToEdit =>
    if postToEdit.authorId != u then .error .notYourPost
    else if content.length > 67 then .error .tooLong
    else .ok (s.map (fun p =>
      if p.id == postId && p.authorId == u then { p with content := jsTrim content }
      else p))

/-- `likePost` (part_001 lines 113-139): no-op when the found post
already contains the caller, else appends the caller to the likes of
every post with the given id. -/
def likePost (u postId : String) (s : List Post) :
    Except PostError (List Post) :=
  match s.find? (fun p => p.id == postId) with
  | none => .error .notFound
  | some postToLike =>
    if postToLike.likes.contains u then .ok s
    else .ok (s.map (fun p =>
      if p.id == postId then { p with likes := p.likes ++ [u] } else p))

/-- `unlikePost` (part_001 lines 142-168): no-op when the found post
does not contain the caller, else filters the caller out of the likes
of every post with the given id. -/
def unlikePost (u postId : String) (s : List Post) :
    Except PostError (List Post) :=
  match s.find? (fun p => p.id == postId) with
  | none => .error .notFound
  | some postToUnlike =>
    if !(postToUnlike.likes.contains u) then .ok s
    else .ok (s.map (fun p =>
      if p.id == postId then { p with likes := p.likes.filter (fun i => i != u) }
      else p))

/-- `hasReposted` (part_001 lines 171-186): literal match of
`originalCommentId`/`originalPostId` against the queried id. -/
def hasReposted (u contentId : String) (isComment : Bool) (s : List Post) : Bool :=
  s.any (fun p =>
    if isComment then
      p.isRepost && p.originalCommentId == some contentId && p.authorId == u
    else
      p.isRepost && !p.isQuote && p.originalPostId == some contentId &&
        p.authorId == u)

/-- `hasQuoted` (part_001 lines 189-197). -/
def hasQuoted (u contentId : String) (s : List Post) : Bool :=
  s.any (fun p =>
    p.isQuote && p.originalPostId == some contentId && p.authorId == u)

/-- `getUserQuoteOfPost` (part_001 lines 200-210). -/
def getUserQuoteOfPost (u postId : String) (s : List Post) : Option Post :=
  s.find? (fun p =>
    p.isQuote && p.originalPostId == some postId && p.authorId == u)

/-- `unrepostPost` (part_001 lines 246-283).  On a repost id it removes
that repost; on any other id it removes the first `isRepost` item by the
caller whose `originalPostId` matches (note: no `!isQuote` filter). -/
def unrepostPost (u postId : String) (s : List Post) :
    Except PostError (List Post) :=
  match s.find? (fun p => p.id == postId) with
  | none => .error .notFound
  | some post =>
    if post.isRepost then
      if post.authorId != u then .error .notYourRepost
      else .ok (s.filter (fun p => p.id != post.id))
    else
      match s.find? (fun p =>
          p.isRepost && p.originalPostId == some postId && p.authorId == u) with
      | none => .error .notReposted
      | some userRepost => .ok (s.filter (fun p => p.id != userRepost.id))

/-- `unquotePost` (part_001 lines 286-309). -/
def unquotePost (u postId : String) (s : List Post) :
    Except PostError (List Post) :=
  let post := s.find? (fun p => p.id == postId)
  let userQuote : Option Post :=
    match post with
    | some p =>
      if !p.isQuote then getUserQuoteOfPost u postId s
      else if p.isQuote && p.authorId == u then some p
      else none
    | none => none
  match userQuote with
  | none => .error .noQuoteFound
  | some q =>
    if q.authorId != u then .error .notYourQuote
    else .ok (s.filter (fun p => p.id != q.id))

/-- `repostPost` (part_001 lines 312-368): resolves a repost target one
hop through its `originalPostId` before creating the new repost. -/
def repostPost (u nid now postId : String) (s : List Post) :
    Except PostError (List Post) :=
  match s.find? (fun p => p.id == postId) with
  | none => .error .notFound
  | some post =>
    if s.any (fun p =>
        p.isRepost && !p.isQuote && p.originalPostId == some postId &&
          p.authorId == u) then
      .error .alreadyReposted
    else if post.isRepost && post.authorId == u then
      .error .ownRepost
    else
      let originalPostId := if post.isRepost then post.originalPostId else some postId
      if s.any (fun p =>
          p.isRepost && !p.isQuote && p.originalPostId == originalPostId &&
            p.authorId == u) then
        .error .alreadyRepostedOriginal
      else
        .ok ({ id := nid, content := post.content, authorId := u,
               createdAt := now, likes := [], isRepost := true,
               originalPostId := originalPostId } :: s)

/-- `createQuoteRepost` (part_001 lines 371-415): no validation of
`quoteContent` is performed here; the new quote stores the trimmed text. -/
def createQuoteRepost (u nid now postId quoteContent : String) (s : List Post) :
    Except PostError (List Post) :=
  match s.find? (fun p => p.id == postId) with
  | none => .error .notFound
  | some post =>
    if post.isQuote then .error .quoteOfQuote
    else
      let originalPostId := if post.isRepost then post.originalPostId else some postId
      if s.any (fun p =>
          p.isQuote && p.originalPostId == originalPostId && p.authorId == u) then
        .error .alreadyQuoted
      else
        .ok ({ id := nid, content := post.content,
               quoteContent := some (jsTrim quoteContent), authorId := u,
               createdAt := now, likes := [], isRepost := true,
               isQuote := true, originalPostId := originalPostId } :: s)

/-- `createCommentRepost` (part_001 lines 418-468).  The second
(`existingRepost`) check of the source repeats the first predicate, so
it can never fire after the first passes; it is kept for faithfulness. -/
def createCommentRepost (u nid now commentId content originalAuthorId : String)
    (isReply : Bool) (s : List Post) : Except PostError (List Post) :=
  if s.any (fun p =>
      p.isRepost && p.isCommentRepost && p.originalCommentId == some commentId &&
        p.authorId == u) then
    .error .alreadyRepostedComment
  else
    match s.find? (fun p =>
        p.isRepost && p.isCommentRepost && p.originalCommentId == some commentId &&
          p.authorId == u) with
    | some _ => .error .ownRepost
    | none =>
      .ok ({ id := nid, content := content, authorId := u, createdAt := now,
             likes := [], isRepost := true, isCommentRepost := true,
             originalCommentId := some commentId,
             originalAuthorId := some originalAuthorId,
             isReplyRepost := isReply } :: s)

/-- `QuoteModal.handleSubmit` (src/unnamed/part_016 lines 140-158): the
UI-layer validation in front of `createQuoteRepost` — rejects an empty
or over-67-character quote before the engine is called. -/
def quoteModalSubmit (u nid now postId quoteContent : String) (s : List Post) :
    Except PostError (List Post) :=
  if quoteContent.length == 0 then .error .emptyQuote
  else if quoteContent.length > 67 then .error .tooLong
  else createQuoteRepost u nid now postId quoteContent s

/-- `createComment` (CommentContext.tsx lines 56-76): validates only
the 67-character bound, then appends the comment at the end.  No check
on `parentId`, the author, or existing replies. -/
def createComment (u nid now postId content : String) (parentId : Option String)
    (cs : List Comment) : Except PostError (List Comment) :=
  if content.length > 67 then .error .tooLong
  else .ok (cs ++ [{ id := nid, content := content, authorId := u,
                     postId := postId, createdAt := now, likes := [],
                     parentId := parentId }])

/-- `deleteComment` (CommentContext.tsx lines 78-93): collects the
target id plus the ids of its direct children only, then keeps every
comment outside that list or not authored by the caller. -/
def deleteComment (u commentId : String) (cs : List Comment) : List Comment :=
  let childIds := (cs.filter (fun c => c.parentId == some commentId)).map Comment.id
  let commentIdsToDelete := commentId :: childIds
  cs.filter (fun c =>
    !(commentIdsToDelete.contains c.id) ||
    (commentIdsToDelete.contains c.id && c.authorId != u))

/-- `hasPostAuthorReply` (src/src/components/CommentItem.tsx line 54):
whether some reply to the comment is authored by the posts author.  The
source reads the replies through `getCommentReplies`, which sorts by
`createdAt`; `some`/`any` is insensitive to that order, so the sort is
dropped. -/
def hasPostAuthorReply (postAuthorId commentId : String) (cs : List Comment) : Bool :=
  (cs.filter (fun c => c.parentId == some commentId)).any
    (fun r => r.authorId == postAuthorId)

/-- Every post of the collection has a duplicate-free likes list. -/
def likesNodup (s : List Post) : Prop := ∀ p ∈ s, p.likes.Nodup

/-! ### Concrete states used by witnesses and counterexamples -/

/-- An original post by alice. -/
def pOrig : Post :=
  { id := "1", content := "hello", authorId := "alice", createdAt := "t0",
    likes := [] }

/-- A repost of `pOrig` by bob. -/
def pRepost : Post :=
  { id := "2", content := "hello", authorId := "bob", createdAt := "t1",
    likes := [], isRepost := true, originalPostId := some "1" }

/-- A repost of `pOrig` by uma. -/
def pMyRepost : Post :=
  { id := "4", content := "hello", authorId := "uma", createdAt := "t2",
    likes := [], isRepost := true, originalPostId := some "1" }

/-- A quote of `pOrig` by uma (quotes carry `isRepost := true` exactly as
`createQuoteRepost` builds them). -/
def pQuote : Post :=
  { id := "3", content := "hello", authorId := "uma", createdAt := "t3",
    likes := [], isRepost := true, isQuote := true,
    originalPostId := some "1", quoteContent := some "nice" }

/-- An unrelated post by bob. -/
def pOther : Post :=
  { id := "5", content := "bye", authorId := "bob", createdAt := "t4",
    likes := [] }

/-- The original post with a like by uma already stored. -/
def pLiked : Post :=
  { id := "1", content := "hello", authorId := "alice", createdAt := "t0",
    likes := ["uma"] }

/-- A 68-character body, one over the bound. -/
def long68 : String :=
  "aaaaaaaaaaaaaaaaaaaaaaaaaaaaaaaaaaaaaaaaaaaaaaaaaaaaaaaaaaaaaaaaaaaa"

/-- A top-level comment by bob on post `"1"`. -/
def cTop : Comment :=
  { id := "k1", content := "first", authorId := "bob", postId := "1",
    createdAt := "t0", likes := [] }

/-- A reply to `cTop` by carol (not the posts author). -/
def cReply1 : Comment :=
  { id := "k2", content := "hi", authorId := "carol", postId := "1",
    createdAt := "t1", likes := [], parentId := some "k1" }

/-- A second reply to `cTop`, by dave. -/
def cReply2 : Comment :=
  { id := "k3", content := "yo", authorId := "dave", postId := "1",
    createdAt := "t2", likes := [], parentId := some "k1" }

/-- A comment by uma, with a reply and a reply-to-the-reply, all by uma. -/
def cK : Comment :=
  { id := "c1", content := "root", authorId := "uma", postId := "1",
    createdAt := "t0", likes := [] }

/-- Direct reply to `cK`. -/
def cChild : Comment :=
  { id := "c2", content := "child", authorId := "uma", postId := "1",
    createdAt := "t1", likes := [], parentId := some "c1" }

/-- Reply to `cChild`: an indirect reply of `cK`. -/
def cGrand : Comment :=
  { id := "c3", content := "grand", authorId := "uma", postId := "1",
    createdAt := "t2", likes := [], parentId := some "c2" }

/-! ### Theorems -/

/-- C1: for every post collection and every repost R whose
`originalPostId` is C, a successful `repostPost` on the id of R creates
a new repost whose `originalPostId` equals C (a single hop through the
targets `originalPostId`), never the id of R itself. -/
theorem repostPost_on_repost_resolves_to_original
    (u nid now rid C : String) (s : List Post) (R : Post)
    (hfind : s.find? (fun p => p.id == rid) = some R)
    (hrep : R.isRepost = true) (horig : R.originalPostId = some C)
    (s' : List Post) (hok : repostPost u nid now rid s = .ok s') :
    ∃ r : Post, s' = r :: s ∧ r.isRepost = true ∧
      r.originalPostId = some C ∧ (C ≠ rid → r.originalPostId ≠ some rid) := by
  simp only [repostPost, hfind] at hok
  split at hok
  · exact Except.noConfusion hok
  · split at hok
    · exact Except.noConfusion hok
    · split at hok
      · exact Except.noConfusion hok
      · injection hok with h
        refine ⟨_, h.symm, rfl, horig, fun hne => ?_⟩
        rw [horig]
        exact fun hc => hne (Option.some_injective _ hc)

/-- Witness for C1: carol reposts bobs repost of alices post; the new
repost points at the original `"1"`, not at the repost id `"2"`. -/
theorem repostPost_on_repost_resolves_to_original_witness :
    ∃ r : Post,
      ({ id := "9", content := "hello", authorId := "carol",
         createdAt := "t9", likes := [], isRepost := true,
         originalPostId := some "1" } : Post) :: [pRepost, pOrig] =
        r :: [pRepost, pOrig] ∧
      r.isRepost = true ∧ r.originalPostId = some "1" ∧
      ("1" ≠ "2" → r.originalPostId ≠ some "2") :=
  repostPost_on_repost_resolves_to_original "carol" "9" "t9" "2" "1"
    [pRepost, pOrig] pRepost (by decide) (by decide) (by decide) _ (by decide)

/-- C2 (bug evaluation): uma has both a repost (`pMyRepost`) and a
newer quote (`pQuote`) of post `"1"`; `unrepostPost` on the original id
removes the quote and keeps the repost, because the lookup in its else
branch matches any `isRepost` item without excluding quotes. -/
theorem unrepostPost_removes_quote_bug :
    unrepostPost "uma" "1" [pQuote, pMyRepost, pOrig] =
      .ok [pMyRepost, pOrig] ∧
    hasQuoted "uma" "1" [pMyRepost, pOrig] = false ∧
    hasReposted "uma" "1" false [pMyRepost, pOrig] = true := by decide

/-- C3 (counterexample): with bobs repost `pRepost` (id `"2"`,
`originalPostId` `"1"`) and umas repost of `"1"` both present, querying
`hasReposted` by the repost id gives `false` while querying by the
resolved original gives `true`; likewise for `hasQuoted` with umas
quote present.  The queries match `originalPostId` literally and do not
resolve. -/
theorem hasReposted_by_repost_id_differs :
    pRepost.isRepost = true ∧ pRepost.originalPostId = some "1" ∧
    hasReposted "uma" "2" false [pRepost, pMyRepost] = false ∧
    hasReposted "uma" "1" false [pRepost, pMyRepost] = true ∧
    hasQuoted "uma" "2" [pRepost, pQuote] = false ∧
    hasQuoted "uma" "1" [pRepost, pQuote] = true := by decide

/-- C3 (amended): `hasReposted`/`hasQuoted` are literal matches on
`originalPostId`: they return true exactly when the collection holds a
matching item whose `originalPostId` equals the queried id itself; no
resolution through a repost target happens inside the query (call sites
resolve before querying). -/
theorem hasReposted_literal_match (u cid : String) (s : List Post) :
    (hasReposted u cid false s = true ↔
      ∃ p ∈ s, p.isRepost = true ∧ p.isQuote = false ∧
        p.originalPostId = some cid ∧ p.authorId = u) ∧
    (hasQuoted u cid s = true ↔
      ∃ p ∈ s, p.isQuote = true ∧ p.originalPostId = some cid ∧
        p.authorId = u) := by
  constructor
  · simp [hasReposted, List.any_eq_true, Bool.and_eq_true, beq_iff_eq,
      Bool.not_eq_true']
    aesop
  · simp [hasQuoted, List.any_eq_true, Bool.and_eq_true, beq_iff_eq]
    aesop

/-- C4 (counterexample): `cGrand` is an indirect reply of `cK` (its
`parentId` chain reaches `cK` through `cChild`), all three comments
authored by the deleting user; deleting `cK` leaves `cGrand` in the
collection. -/
theorem deleteComment_leaves_grandchild :
    cChild.parentId = some cK.id ∧ cGrand.parentId = some cChild.id ∧
    deleteComment "uma" "c1" [cK, cChild, cGrand] = [cGrand] := by decide

/-- C4 (amended): `deleteComment` removes exactly the target comment and
its direct replies, restricted to comments authored by the deleting
user; every comment that is neither the target nor a direct reply (in
particular every indirect reply) survives. -/
theorem deleteComment_direct_replies_only (u cid : String) (cs : List Comment) :
    (∀ c ∈ cs, c.authorId = u → c.id = cid → c ∉ deleteComment u cid cs) ∧
    (∀ c ∈ cs, c.authorId = u → c.parentId = some cid →
      c ∉ deleteComment u cid cs) ∧
    (∀ c ∈ cs, c.id ≠ cid → c.parentId ≠ some cid →
      (∀ d ∈ cs, d.parentId = some cid → d.id ≠ c.id) →
      c ∈ deleteComment u cid cs) := by
  refine ⟨fun c hc hau hid hmem => ?_, fun c hc hau hpar hmem => ?_,
    fun c hc hid hpar hids => ?_⟩
  · rw [deleteComment, List.mem_filter] at hmem
    simp only [hid, hau] at hmem
    simp [List.elem_iff] at hmem
  · rw [deleteComment, List.mem_filter] at hmem
    obtain ⟨-, hpred⟩ := hmem
    have hin : c.id ∈
        ((cs.filter (fun x => x.parentId == some cid)).map Comment.id) :=
      List.mem_map_of_mem _ (List.mem_filter.mpr ⟨hc, by simp [hpar]⟩)
    simp [List.elem_iff, hin, hau] at hpred
  · rw [deleteComment, List.mem_filter]
    refine ⟨hc, ?_⟩
    have hnotin : ¬ c.id ∈
        (cid :: (cs.filter (fun x => x.parentId == some cid)).map Comment.id) := by
      intro hin
      rcases List.mem_cons.mp hin with h | h
      · exact hid h
      · obtain ⟨d, hd, hdid⟩ := List.mem_map.mp h
        obtain ⟨hdmem, hdpar⟩ := List.mem_filter.mp hd
        exact hids d hdmem (by simpa using hdpar) hdid
    simp [List.elem_iff, hnotin]

/-- Witness for the amended C4: the surviving indirect reply, obtained
from the theorem at the concrete three-comment state. -/
theorem deleteComment_direct_replies_only_witness :
    cGrand ∈ deleteComment "uma" "c1" [cK, cChild, cGrand] :=
  (deleteComment_direct_replies_only "uma" "c1" [cK, cChild, cGrand]).2.2
    cGrand (by decide) (by decide) (by decide) (by decide)

/-- C5: a successful `deletePost` of an original post removes, in the
same operation, the post itself and every derived item whose
`originalPostId` is the deleted id — all reposts and all quotes of it.
The collection is assumed to have distinct ids, and every item pointing
at the deleted id to carry `isRepost` (both hold in every state the
operations build: reposts and quotes are created with `isRepost :=
true`). -/
theorem deletePost_cascades_reposts_and_quotes (u pid : String)
    (s s' : List Post)
    (hids : (s.map Post.id).Nodup)
    (hwf : ∀ q ∈ s, q.originalPostId = some pid → q.isRepost = true)
    (hok : deletePost u pid s = .ok s') :
    ∀ p ∈ s', p.id ≠ pid ∧ p.originalPostId ≠ some pid := by
  cases hfind : s.find? (fun p => p.id == pid) with
  | none => simp only [deletePost, hfind] at hok; exact Except.noConfusion hok
  | some P =>
    simp only [deletePost, hfind] at hok
    split at hok
    · exact Except.noConfusion hok
    · rename_i hau
      injection hok with h
      subst h
      intro p hp
      rw [List.mem_filter] at hp
      obtain ⟨hpmem, hpred⟩ := hp
      have hPmem : P ∈ s := List.mem_of_find?_eq_some hfind
      have hPid : P.id = pid := by have := List.find?_some hfind; simpa using this
      have hPu : P.authorId = u := by simpa using hau
      have hpidne : p.id ≠ pid := by
        intro hpid
        have hpP : p = P :=
          List.inj_on_of_nodup_map hids hpmem hPmem (by rw [hpid, hPid])
        rw [hpP] at hpred
        simp [hPid, hPu] at hpred
      refine ⟨hpidne, fun horig => ?_⟩
      have hrep := hwf p hpmem horig
      simp [hpidne, hrep, horig] at hpred

/-- Witness for C5: alice deletes her post `"1"`; a quote and two
reposts of it disappear with it and only the unrelated post remains. -/
theorem deletePost_cascades_reposts_and_quotes_witness :
    deletePost "alice" "1" [pQuote, pRepost, pMyRepost, pOrig, pOther] =
      .ok [pOther] ∧
    (∀ p ∈ [pOther], p.id ≠ "1" ∧ p.originalPostId ≠ some "1") :=
  ⟨by decide,
   deletePost_cascades_reposts_and_quotes "alice" "1"
     [pQuote, pRepost, pMyRepost, pOrig, pOther] [pOther]
     (by decide) (by decide) (by decide)⟩

/-- C6: after a successful `repostPost` by a user on an original (non
repost) post, a second `repostPost` by the same user on the same id
fails with the already-reposted error; the error result models the
thrown updater, which leaves the stored collection unchanged. -/
theorem repostPost_twice_fails (u nid1 now1 nid2 now2 pid : String)
    (s s' : List Post) (C : Post)
    (hfind : s.find? (fun p => p.id == pid) = some C)
    (hC : C.isRepost = false)
    (h1 : repostPost u nid1 now1 pid s = .ok s') :
    repostPost u nid2 now2 pid s' = .error .alreadyReposted := by
  simp only [repostPost, hfind, hC, Bool.false_and, Bool.false_eq_true,
    if_false] at h1
  split at h1
  · exact Except.noConfusion h1
  · injection h1 with h
    subst h
    obtain ⟨P', hP'⟩ : ∃ P',
        (({ id := nid1, content := C.content, authorId := u,
            createdAt := now1, likes := [], isRepost := true,
            originalPostId := some pid } : Post) :: s).find?
          (fun p => p.id == pid) = some P' := by
      by_cases hcase : ((nid1 : String) == pid) = true
      · exact ⟨_, List.find?_cons_of_pos _ hcase⟩
      · exact ⟨C, by rw [List.find?_cons_of_neg _ (by simpa using hcase), hfind]⟩
    simp only [repostPost, hP']
    simp [List.any_cons]

/-- Witness for C6: uma reposts post `"1"`, then tries again and gets
the already-reposted error. -/
theorem repostPost_twice_fails_witness :
    repostPost "uma" "8" "t8" "1"
      [{ id := "9", content := "hello", authorId := "uma", createdAt := "t9",
         likes := [], isRepost := true, originalPostId := some "1" }, pOrig] =
      .error .alreadyReposted :=
  repostPost_twice_fails "uma" "9" "t9" "8" "t8" "1" [pOrig] _ pOrig
    (by decide) (by decide) (by decide)

/-- C7 (counterexample): `createPost` accepts a 68-character body — one
over the bound — and inserts it unchanged; no creation-time length check
exists in the engine. -/
theorem createPost_accepts_long_content :
    long68.length = 68 ∧
    createPost "uma" "9" "t9" long68 [] =
      .ok [{ id := "9", content := long68, authorId := "uma",
             createdAt := "t9", likes := [] }] := by decide

/-- C7 (amended): the 67-character bound is enforced by `editPost` only:
for over-long content `editPost` always fails (with the too-long error
whenever the target is found and owned by the caller, so the stored body
is never replaced), while `createPost` succeeds and inserts the over-long
body; the creation-time bound lives only in the UI layer. -/
theorem editPost_enforces_length_createPost_does_not
    (u pid nid now content : String) (s : List Post)
    (hlen : content.length > 67) :
    (∃ e, editPost u pid content s = .error e) ∧
    (∀ P, s.find? (fun p => p.id == pid) = some P → P.authorId = u →
      editPost u pid content s = .error .tooLong) ∧
    createPost u nid now content s =
      .ok ({ id := nid, content := jsTrim content, authorId := u,
             createdAt := now, likes := [] } :: s) := by
  refine ⟨?_, ?_, rfl⟩
  · cases hfind : s.find? (fun p => p.id == pid) with
    | none => exact ⟨.notFound, by simp [editPost, hfind]⟩
    | some P =>
      by_cases hau : P.authorId = u
      · exact ⟨.tooLong, by simp [editPost, hfind, hau, hlen]⟩
      · exact ⟨.notYourPost, by simp [editPost, hfind, hau]⟩
  · intro P hfind hau
    simp [editPost, hfind, hau, hlen]

/-- Witness for the amended C7 at the 68-character body. -/
theorem editPost_enforces_length_createPost_does_not_witness :
    (∃ e, editPost "uma" "4" long68 [pMyRepost] = .error e) ∧
    (∀ P, [pMyRepost].find? (fun p => p.id == "4") = some P →
      P.authorId = "uma" →
      editPost "uma" "4" long68 [pMyRepost] = .error .tooLong) ∧
    createPost "uma" "9" "t9" long68 [pMyRepost] =
      .ok ({ id := "9", content := jsTrim long68, authorId := "uma",
             createdAt := "t9", likes := [] } :: [pMyRepost]) :=
  editPost_enforces_length_createPost_does_not "uma" "4" "9" "t9" long68
    [pMyRepost] (by decide)

/-- C8 (counterexample): `createQuoteRepost` inserts a 68-character
quote body and also a whitespace-only one (stored as the empty string
after trimming); it never fails on the quote body. -/
theorem createQuoteRepost_accepts_invalid_quote :
    long68.length = 68 ∧
    createQuoteRepost "uma" "9" "t9" "1" long68 [pOrig] =
      .ok [{ id := "9", content := "hello", quoteContent := some long68,
             authorId := "uma", createdAt := "t9", likes := [],
             isRepost := true, isQuote := true,
             originalPostId := some "1" }, pOrig] ∧
    createQuoteRepost "uma" "8" "t8" "1" "   " [pOrig] =
      .ok [{ id := "8", content := "hello", quoteContent := some "",
             authorId := "uma", createdAt := "t8", likes := [],
             isRepost := true, isQuote := true,
             originalPostId := some "1" }, pOrig] := by decide

/-- C8 (amended): the quote-body checks live in the UI layer
(`QuoteModal.handleSubmit`): it rejects an over-67-character or
zero-length quote before calling the engine, while `createQuoteRepost`
itself inserts any quote body once its target and duplicate checks
pass. -/
theorem quote_validation_lives_in_modal (u nid now pid qc : String)
    (s : List Post) :
    (qc.length > 67 → quoteModalSubmit u nid now pid qc s = .error .tooLong) ∧
    (qc.length = 0 → quoteModalSubmit u nid now pid qc s = .error .emptyQuote) ∧
    (∀ P, s.find? (fun p => p.id == pid) = some P → P.isQuote = false →
      s.any (fun p => p.isQuote &&
        p.originalPostId == (if P.isRepost then P.originalPostId else some pid) &&
        p.authorId == u) = false →
      createQuoteRepost u nid now pid qc s =
        .ok ({ id := nid, content := P.content,
               quoteContent := some (jsTrim qc), authorId := u,
               createdAt := now, likes := [], isRepost := true, isQuote := true,
               originalPostId :=
                 if P.isRepost then P.originalPostId else some pid } :: s)) := by
  refine ⟨fun hlen => ?_, fun hz => ?_, fun P hfind hq hany => ?_⟩
  · have hnz : qc.length ≠ 0 := by omega
    simp [quoteModalSubmit, hnz, hlen]
  · simp [quoteModalSubmit, hz]
  · simp [createQuoteRepost, hfind, hq, hany]

/-- Witness for the amended C8: the modal rejects the over-long and the
empty quote body at concrete inputs. -/
theorem quote_validation_lives_in_modal_witness :
    quoteModalSubmit "uma" "9" "t9" "1" long68 [pOrig] = .error .tooLong ∧
    quoteModalSubmit "uma" "9" "t9" "1" "" [pOrig] = .error .emptyQuote :=
  ⟨(quote_validation_lives_in_modal "uma" "9" "t9" "1" long68 [pOrig]).1
     (by decide),
   (quote_validation_lives_in_modal "uma" "9" "t9" "1" "" [pOrig]).2.1
     (by decide)⟩

/-- C9 (counterexample): post `"1"` is by alice and comment `cTop` on it
is by bob; `createComment` accepts a reply to `cTop` from carol (not the
posts author), and then accepts a second reply from dave although a
reply already exists — the engine enforces neither reply rule. -/
theorem createComment_accepts_any_reply :
    pOrig.authorId = "alice" ∧ cReply1.authorId ≠ "alice" ∧
    createComment "carol" "k2" "t1" "1" "hi" (some "k1") [cTop] =
      .ok [cTop, cReply1] ∧
    createComment "dave" "k3" "t2" "1" "yo" (some "k1") [cTop, cReply1] =
      .ok [cTop, cReply1, cReply2] ∧
    cReply1.parentId = some cTop.id ∧ cReply2.parentId = some cTop.id := by
  decide

/-- C9 (amended): `createComment` enforces only the 67-character bound
and appends the reply for any caller and any parent, regardless of
existing replies; the post-author-only / one-reply-per-comment pattern
is computed at the UI layer by `hasPostAuthorReply`, which is true
exactly when some reply to the comment is authored by the posts
author. -/
theorem createComment_no_reply_rules (u nid now pid content : String)
    (parentId : Option String) (cs : List Comment) :
    (content.length ≤ 67 →
      createComment u nid now pid content parentId cs =
        .ok (cs ++ [{ id := nid, content := content, authorId := u,
                      postId := pid, createdAt := now, likes := [],
                      parentId := parentId }])) ∧
    (∀ pa cid, hasPostAuthorReply pa cid cs = true ↔
      ∃ c ∈ cs, c.parentId = some cid ∧ c.authorId = pa) := by
  constructor
  · intro hlen
    simp [createComment, Nat.not_lt.mpr hlen]
  · intro pa cid
    simp [hasPostAuthorReply, List.any_eq_true, List.mem_filter]

/-- Witness for the amended C9: carols reply is appended, and
`hasPostAuthorReply` reports carols reply for carol as post author. -/
theorem createComment_no_reply_rules_witness :
    createComment "carol" "k2" "t1" "1" "hi" (some "k1") [cTop] =
      .ok [cTop, cReply1] ∧
    hasPostAuthorReply "carol" "k1" [cTop, cReply1] = true :=
  ⟨(createComment_no_reply_rules "carol" "k2" "t1" "1" "hi" (some "k1")
      [cTop]).1 (by decide),
   ((createComment_no_reply_rules "carol" "k2" "t1" "1" "hi" (some "k1")
      [cTop, cReply1]).2 "carol" "k1").mpr ⟨cReply1, by decide, by decide,
      by decide⟩⟩

/-- Filtering the collection keeps every likes list untouched. -/
theorem likesNodup_filter {s : List Post} (hn : likesNodup s)
    (f : Post → Bool) : likesNodup (s.filter f) :=
  fun p hp => hn p (List.mem_filter.mp hp).1

/-- Prepending a post with an empty likes list keeps the invariant. -/
theorem likesNodup_fresh {s : List Post} (hn : likesNodup s) {p : Post}
    (hp : p.likes = []) : likesNodup (p :: s) := by
  intro q hq
  rcases List.mem_cons.mp hq with h | h
  · rw [h, hp]; exact List.nodup_nil
  · exact hn q h

/-- A successful `repostPost` prepends one new post with empty likes. -/
theorem repostPost_ok_shape (u nid now pid : String) (s s' : List Post)
    (hok : repostPost u nid now pid s = .ok s') :
    ∃ r : Post, r.likes = [] ∧ s' = r :: s := by
  cases hfind : s.find? (fun p => p.id == pid) <;>
    simp only [repostPost, hfind] at hok
  · exact Except.noConfusion hok
  · repeat' split at hok
    all_goals first
      | exact Except.noConfusion hok
      | (injection hok with h; exact ⟨_, rfl, h.symm⟩)

/-- A successful `createQuoteRepost` prepends one new post with empty
likes. -/
theorem createQuoteRepost_ok_shape (u nid now pid qc : String)
    (s s' : List Post)
    (hok : createQuoteRepost u nid now pid qc s = .ok s') :
    ∃ r : Post, r.likes = [] ∧ s' = r :: s := by
  cases hfind : s.find? (fun p => p.id == pid) <;>
    simp only [createQuoteRepost, hfind] at hok
  · exact Except.noConfusion hok
  · repeat' split at hok
    all_goals first
      | exact Except.noConfusion hok
      | (injection hok with h; exact ⟨_, rfl, h.symm⟩)

/-- A successful `createCommentRepost` prepends one new post with empty
likes. -/
theorem createCommentRepost_ok_shape (u nid now cid content oa : String)
    (ir : Bool) (s s' : List Post)
    (hok : createCommentRepost u nid now cid content oa ir s = .ok s') :
    ∃ r : Post, r.likes = [] ∧ s' = r :: s := by
  simp only [createCommentRepost] at hok
  repeat' split at hok
  all_goals first
    | exact Except.noConfusion hok
    | (injection hok with h; exact ⟨_, rfl, h.symm⟩)

/-- A successful `unrepostPost` filters one id out of the collection. -/
theorem unrepostPost_ok_shape (u pid : String) (s s' : List Post)
    (hok : unrepostPost u pid s = .ok s') :
    ∃ tid : String, s' = s.filter (fun p => p.id != tid) := by
  cases hfind : s.find? (fun p => p.id == pid) <;>
    simp only [unrepostPost, hfind] at hok
  · exact Except.noConfusion hok
  · repeat' split at hok
    all_goals first
      | exact Except.noConfusion hok
      | (injection hok with h; exact ⟨_, h.symm⟩)

/-- A successful `unquotePost` filters one id out of the collection. -/
theorem unquotePost_ok_shape (u pid : String) (s s' : List Post)
    (hok : unquotePost u pid s = .ok s') :
    ∃ tid : String, s' = s.filter (fun p => p.id != tid) := by
  simp only [unquotePost] at hok
  repeat' split at hok
  all_goals first
    | exact Except.noConfusion hok
    | (injection hok with h; exact ⟨_, h.symm⟩)

/-- C10: on a collection with distinct ids whose likes lists are all
duplicate-free, every operation of the engine keeps every likes list
duplicate-free; moreover `likePost` is a no-op when the target already
holds the callers like, and after `unlikePost` no occurrence of the
caller survives in the target posts likes. -/
theorem likes_lists_stay_nodup (s : List Post) (hn : likesNodup s)
    (hids : (s.map Post.id).Nodup) :
    (∀ u nid now content s',
      createPost u nid now content s = .ok s' → likesNodup s') ∧
    (∀ u pid s', deletePost u pid s = .ok s' → likesNodup s') ∧
    (∀ u pid content s', editPost u pid content s = .ok s' → likesNodup s') ∧
    (∀ u pid P, s.find? (fun p => p.id == pid) = some P →
      P.likes.contains u = true → likePost u pid s = .ok s) ∧
    (∀ u pid s', likePost u pid s = .ok s' → likesNodup s') ∧
    (∀ u pid s', unlikePost u pid s = .ok s' →
      likesNodup s' ∧ ∀ p ∈ s', p.id = pid → u ∉ p.likes) ∧
    (∀ u nid now pid s', repostPost u nid now pid s = .ok s' → likesNodup s') ∧
    (∀ u pid s', unrepostPost u pid s = .ok s' → likesNodup s') ∧
    (∀ u pid s', unquotePost u pid s = .ok s' → likesNodup s') ∧
    (∀ u nid now pid qc s',
      createQuoteRepost u nid now pid qc s = .ok s' → likesNodup s') ∧
    (∀ u nid now cid content oa ir s',
      createCommentRepost u nid now cid content oa ir s = .ok s' →
        likesNodup s') := by
  refine ⟨?_, ?_, ?_, ?_, ?_, ?_, ?_, ?_, ?_, ?_, ?_⟩
  · intro u nid now content s' hok
    injection hok with h
    exact h ▸ likesNodup_fresh hn rfl
  · intro u pid s' hok
    cases hfind : s.find? (fun p => p.id == pid) <;>
      simp only [deletePost, hfind] at hok
    · exact Except.noConfusion hok
    · split at hok
      · exact Except.noConfusion hok
      · injection hok with h
        exact h ▸ likesNodup_filter hn _
  · intro u pid content s' hok
    cases hfind : s.find? (fun p => p.id == pid) <;>
      simp only [editPost, hfind] at hok
    · exact Except.noConfusion hok
    · split at hok
      · exact Except.noConfusion hok
      · split at hok
        · exact Except.noConfusion hok
        · injection hok with h
          subst h
          intro p' hp'
          rcases List.mem_map.mp hp' with ⟨p, hp, rfl⟩
          by_cases hc : (p.id == pid && p.authorId == u) = true <;>
            simp [hc] <;> exact hn p hp
  · intro u pid P hfind hcon
    simp [likePost, hfind, hcon]
    intro hnot
    exact absurd (show u ∈ P.likes by simpa [List.elem_iff] using hcon) hnot
  · intro u pid s' hok
    cases hfind : s.find? (fun p => p.id == pid) <;>
      simp only [likePost, hfind] at hok
    · exact Except.noConfusion hok
    · rename_i P
      split at hok
      · injection hok with h
        exact h ▸ hn
      · rename_i hcon
        injection hok with h
        subst h
        intro p' hp'
        rcases List.mem_map.mp hp' with ⟨p, hp, rfl⟩
        by_cases hc : (p.id == pid) = true
        · simp only [hc, if_true]
          have hPs : P ∈ s := List.mem_of_find?_eq_some hfind
          have hPid : P.id = pid := by
            have := List.find?_some hfind; simpa using this
          have hpP : p = P := List.inj_on_of_nodup_map hids hp hPs
            (by rw [hPid]; simpa using hc)
          have hu : u ∉ p.likes := by
            rw [hpP]
            intro hmem
            rw [Bool.not_eq_true, ← Bool.not_eq_true] at hcon
            exact hcon (by simpa [List.elem_iff] using hmem)
          simp only [List.nodup_append]
          exact ⟨hn p hp, List.nodup_singleton u,
            by simpa [List.disjoint_singleton] using hu⟩
        · simp only [hc, if_false]
          exact hn p hp
  · intro u pid s' hok
    cases hfind : s.find? (fun p => p.id == pid) <;>
      simp only [unlikePost, hfind] at hok
    · exact Except.noConfusion hok
    · rename_i P
      have hPs : P ∈ s := List.mem_of_find?_eq_some hfind
      have hPid : P.id = pid := by
        have := List.find?_some hfind; simpa using this
      split at hok
      · rename_i hcon
        injection hok with h
        subst h
        refine ⟨hn, fun p hp hpid => ?_⟩
        have hpP : p = P := List.inj_on_of_nodup_map hids hp hPs
          (by rw [hPid, hpid])
        rw [hpP]
        intro hmem
        simp only [Bool.not_eq_true'] at hcon
        simp [List.elem_iff, hmem] at hcon
      · injection hok with h
        subst h
        constructor
        · intro p' hp'
          rcases List.mem_map.mp hp' with ⟨p, hp, rfl⟩
          by_cases hc : (p.id == pid) = true <;> simp [hc]
          · exact List.Nodup.filter _ (hn p hp)
          · exact hn p hp
        · intro p' hp' hpid
          rcases List.mem_map.mp hp' with ⟨p, hp, rfl⟩
          by_cases hc : (p.id == pid) = true
          · simp [hc]
          · simp [hc] at hpid ⊢
            exact absurd hpid (by simpa using hc)
  · intro u nid now pid s' hok
    obtain ⟨r, hr, rfl⟩ := repostPost_ok_shape u nid now pid s s' hok
    exact likesNodup_fresh hn hr
  · intro u pid s' hok
    obtain ⟨tid, rfl⟩ := unrepostPost_ok_shape u pid s s' hok
    exact likesNodup_filter hn _
  · intro u pid s' hok
    obtain ⟨tid, rfl⟩ := unquotePost_ok_shape u pid s s' hok
    exact likesNodup_filter hn _
  · intro u nid now pid qc s' hok
    obtain ⟨r, hr, rfl⟩ := createQuoteRepost_ok_shape u nid now pid qc s s' hok
    exact likesNodup_fresh hn hr
  · intro u nid now cid content oa ir s' hok
    obtain ⟨r, hr, rfl⟩ :=
      createCommentRepost_ok_shape u nid now cid content oa ir s s' hok
    exact likesNodup_fresh hn hr

/-- Witness for C10: at a concrete one-post state whose likes already
hold uma, `likePost` by uma is a no-op. -/
theorem likes_lists_stay_nodup_witness :
    likePost "uma" "1" [pLiked] = .ok [pLiked] :=
  (likes_lists_stay_nodup [pLiked]
    (by intro p hp; simp at hp; subst hp; decide)
    (by decide)).2.2.2.1 "uma" "1" pLiked (by decide) (by decide)

end Breek
